import Mathlib

/-!
Verification of the transport and dispatch core of the lynx-devtool
protocol client (InspectorBackend / DOMModel undo stack).

The definitions below are a shallow embedding of the TypeScript source in
src/unnamed/part_000: `splitQualifiedName` and `qualifyName` (lines 87-94),
`SessionRouter` (lines 324-593), `TargetBase` construction (lines 620-651),
`_AgentPrototype` (lines 998-1242), `DispatcherManager` (lines 1251-1303)
and `DOMModelUndoStack` (lines 3000-3079).

Modelling conventions:
- JS strings are Lean `String` except in `splitQualifiedName`, where the
  character-level behaviour of `String.prototype.split` matters and strings
  are embedded as `List Char`.
- JS `Map` and `Record` objects are association lists whose keys are unique
  by construction; `Map.set` replaces in place (JS keeps insertion order).
- Side effects observable at the interface (messages handed to the
  Connection, callbacks invoked, events dispatched to a target, protocol
  errors reported, console errors) are recorded in explicit history fields
  of the state; test-only instrumentation hooks (`test.dumpProtocol`,
  `test.onMessageSent`, `test.onMessageReceived`), host telemetry
  (`sendWindowMessage`, `reportToStatistics`, the `_timestamps` weak map)
  and the `_pendingScripts` drain machinery (reachable only through the
  `test` hook) are not modelled: none of the claims depend on them.
- `async` bodies are modelled run-to-completion: an `await` resolves in
  place. The claims settled here do not depend on continuation
  interleaving (noted where relevant).
-/

/-! ## Association list helpers (JS Map / Record) -/

/-- `Map.get` / `record[key]`: the value bound to the first occurrence of
the key, if any. -/
def getAssoc {κ α : Type} [DecidableEq κ] : List (κ × α) → κ → Option α
  | [], _ => none
  | (k, v) :: rest, key => if k = key then some v else getAssoc rest key

/-- `Map.set` / `record[key] = v`: replace the binding in place if the key
is present (JS keeps the original position), otherwise append. -/
def setAssoc {κ α : Type} [DecidableEq κ] : List (κ × α) → κ → α → List (κ × α)
  | [], key, v => [(key, v)]
  | (k, w) :: rest, key, v =>
      if k = key then (k, v) :: rest else (k, w) :: setAssoc rest key v

/-- `Map.delete` / `delete record[key]`: drop the first binding of the key. -/
def eraseAssoc {κ α : Type} [DecidableEq κ] : List (κ × α) → κ → List (κ × α)
  | [], _ => []
  | (k, w) :: rest, key => if k = key then rest else (k, w) :: eraseAssoc rest key

/-! ## Qualified names (part_000 lines 82-94)

`splitQualifiedName` destructures `string.split('.')` as
`const [domain, eventName] = ...`: it takes the first two segments produced
by splitting on every dot, not the text before/after the first dot. -/

/-- `String.prototype.split` with a one-character separator, on the
character list of the string: split at every occurrence of the separator,
keeping empty segments. `acc` holds the current segment reversed. -/
def jsSplitCharAux (sep : Char) : List Char → List Char → List (List Char)
  | [], acc => [acc.reverse]
  | c :: cs, acc =>
      if c = sep then acc.reverse :: jsSplitCharAux sep cs []
      else jsSplitCharAux sep cs (c :: acc)

/-- `s.split(sep)` for a one-character separator. -/
def jsSplitChar (sep : Char) (s : List Char) : List (List Char) :=
  jsSplitCharAux sep s []

/-- Lines 87-90: `const [domain, eventName] = string.split('.')`. The first
segment always exists; the second is `undefined` (here `none`) when the
string has no dot. -/
def splitQualifiedName (s : List Char) : List Char × Option (List Char) :=
  let parts := jsSplitChar '.' s
  (parts.headD [], parts.get? 1)

/-- Lines 92-94: template literal `domain + "." + name`. -/
def qualifyName (domain : List Char) (name : List Char) : List Char :=
  domain ++ '.' :: name

/-! ## TargetBase construction (part_000 lines 620-651)

Only the fail-fast argument check (line 625) decides claim C4. JS
truthiness: `parentTarget` and `connection` are nullable references
(modelled as presence flags), `sessionId` is a string, truthy iff
non-empty. -/

/-- Line 625: the constructor throws iff
`(!parentTarget && connection) || (!parentTarget && sessionId) ||
(connection && sessionId)`. -/
def targetBaseConstructorThrows
    (hasParentTarget : Bool) (sessionId : String) (hasConnection : Bool) : Bool :=
  (!hasParentTarget && hasConnection)
    || (!hasParentTarget && !(sessionId = ""))
    || (hasConnection && !(sessionId = ""))

/-- Modelled from the claim (spec section 4.2) words, for comparison with
`targetBaseConstructorThrows`: the argument tuple is one of the two valid
shapes, namely exactly a parent target plus a sessionId, or exactly a
connection, with the additional allowance that none of the three may be
supplied (the implicit root target using the connection factory). -/
def specValidTargetArgs
    (hasParentTarget : Bool) (sessionId : String) (hasConnection : Bool) : Bool :=
  (hasParentTarget && !(sessionId = "") && !hasConnection)
    || (!hasParentTarget && (sessionId = "") && hasConnection)
    || (!hasParentTarget && (sessionId = "") && !hasConnection)

/-! ## SessionRouter (part_000 lines 322-593) -/

/-- Line 322: `const LongPollingMethods = new Set(['CSS.takeComputedStyleUpdates'])`. -/
def longPollingMethods : List String := ["CSS.takeComputedStyleUpdates"]

/-- A proxy connection as seen by the router: its identity, and whether its
`_onMessage` handler is set (line 491 checks for it). -/
structure ProxyConn where
  connId : Nat
  hasOnMessage : Bool
deriving DecidableEq

/-- One entry of `session.callbacks` (interface CallbackWithDebugInfo,
lines 107-110): the callback (by identity) and the method it was sent for. -/
structure CallbackEntry where
  cbId : Nat
  method : String
deriving DecidableEq

/-- One session of `SessionRouter._sessions` (lines 329-333): its target
(by identity), the pending callbacks keyed by message id, and the optional
proxy connection. -/
structure RouterSession where
  targetId : Nat
  callbacks : List (Nat × CallbackEntry)
  proxyConnection : Option ProxyConn
deriving DecidableEq

/-- How a pending callback was eventually invoked: with a backend response
(line 529, `callback(error || null, result || null)`), or with the
synthesized session-unregistering error (lines 585-592). -/
inductive CallbackOutcome
  | response (error : Option Nat) (result : Option Nat)
  | sessionUnregisterError
deriving DecidableEq

/-- A command message handed to `Connection.sendRawMessage` (lines 403-413,
437): id, method, optional params payload, and the sessionId field, which
is attached only when the session id string is non-empty. -/
structure WireMessage where
  id : Nat
  method : String
  params : Option Nat
  sessionId : Option String
deriving DecidableEq

/-- An incoming message as parsed in `_onMessage` (type Message, lines
62-72): optional sessionId, response id, event method, error and result
payloads (payloads by identity). -/
structure IncomingMessage where
  sessionId : Option String
  id : Option Nat
  method : Option String
  error : Option Nat
  result : Option Nat
deriving DecidableEq

/-- The state of one `SessionRouter` (fields of lines 325-334) together
with histories of its observable effects. `issuedIds` records the values
returned by `_nextMessageId`, `wire` the messages handed to the
Connection, `invoked` the callback invocations, `dispatchedEvents` the
events routed to `session.target.dispatch`, `proxyForwards` the messages
forwarded to proxy connections; `protocolErrors` counts
`reportProtocolError` calls and `consoleErrors` counts `console.error`
calls. -/
structure RouterState where
  lastMessageId : Nat
  pendingResponsesCount : Int
  pendingLongPollingMessageIds : List Nat
  sessions : List (String × RouterSession)
  issuedIds : List Nat
  wire : List WireMessage
  invoked : List (Nat × CallbackOutcome)
  dispatchedEvents : List (Nat × IncomingMessage)
  proxyForwards : List (Nat × IncomingMessage)
  protocolErrors : Nat
  consoleErrors : Nat
deriving DecidableEq

/-- The constructor state (lines 336-357): `_lastMessageId = 1`,
`_pendingResponsesCount = 0`, empty long-polling set, empty session map. -/
def RouterState.initial : RouterState :=
  ⟨1, 0, [], [], [], [], [], [], [], 0, 0⟩

/-- Lines 393-395: `return this._lastMessageId++` (post-increment: the old
value is returned). The returned value is also recorded in `issuedIds`. -/
def _nextMessageId (st : RouterState) : Nat × RouterState :=
  (st.lastMessageId,
    { st with
        lastMessageId := st.lastMessageId + 1,
        issuedIds := st.issuedIds ++ [st.lastMessageId] })

/-- `Set.add`: append iff not already present. -/
def insertIdSet (x : Nat) (s : List Nat) : List Nat :=
  if x ∈ s then s else s ++ [x]

/-- `Set.delete`. -/
def eraseIdSet (x : Nat) (s : List Nat) : List Nat :=
  s.filter (fun y => y ≠ x)

/-- `SessionRouter.sendMessage` (lines 401-458). In source order: assign
the next message id, build the message (sessionId attached only when
non-empty), increment `_pendingResponsesCount`, track long-polling ids,
then look up the session — if it is unknown, return (nothing is sent and
no callback is registered); otherwise record the callback and hand the
serialized message to the Connection. The `domain` argument only feeds a
test hook and is unused. -/
def sendMessage (st : RouterState) (sessionId _domain method : String)
    (params : Option Nat) (cbId : Nat) : RouterState :=
  let idSt := _nextMessageId st
  let messageId := idSt.1
  let st := idSt.2
  let msg : WireMessage :=
    { id := messageId, method := method, params := params,
      sessionId := if sessionId = "" then none else some sessionId }
  let st := { st with pendingResponsesCount := st.pendingResponsesCount + 1 }
  let st :=
    if method ∈ longPollingMethods then
      { st with pendingLongPollingMessageIds :=
          insertIdSet messageId st.pendingLongPollingMessageIds }
    else st
  match getAssoc st.sessions sessionId with
  | none => st
  | some session =>
      let session :=
        { session with callbacks := setAssoc session.callbacks messageId ⟨cbId, method⟩ }
      { st with
          sessions := setAssoc st.sessions sessionId session,
          wire := st.wire ++ [msg] }

/-- `SessionRouter.registerSession` (lines 359-372): if a proxy connection
is supplied while some session already has one, log a console error (but
do not reject); then unconditionally `this._sessions.set(sessionId, {target,
callbacks: new Map(), proxyConnection})` — an existing entry for the same
sessionId is replaced by a fresh one. -/
def registerSession (st : RouterState) (targetId : Nat) (sessionId : String)
    (proxyConnection : Option ProxyConn) : RouterState :=
  let st :=
    if proxyConnection.isSome
        && st.sessions.any (fun s => s.2.proxyConnection.isSome) then
      { st with consoleErrors := st.consoleErrors + 1 }
    else st
  { st with
      sessions := setAssoc st.sessions sessionId
        ⟨targetId, [], proxyConnection⟩ }

/-- `SessionRouter.unregisterSession` (lines 374-383): no-op for an unknown
session; otherwise every outstanding callback of the session receives the
session-unregistering error (via `dispatchUnregisterSessionError`) and the
session is removed. -/
def unregisterSession (st : RouterState) (sessionId : String) : RouterState :=
  match getAssoc st.sessions sessionId with
  | none => st
  | some session =>
      { st with
          invoked := st.invoked ++
            session.callbacks.map (fun kv => (kv.2.cbId, CallbackOutcome.sessionUnregisterError)),
          sessions := eraseAssoc st.sessions sessionId }

/-- `SessionRouter._onMessage` (lines 466-545). First the proxy phase
(lines 484-499): the message is forwarded to every session with a proxy
connection whose `_onMessage` is set (a proxy without one reports a
protocol error instead), and a successful forward suppresses
unknown-message errors. Then the owning session is resolved from
`messageObject.sessionId || ''`; if none, a protocol error is reported
(unless suppressed) and the message is dropped. If the session has a proxy
connection the method returns there (line 511-513): the message is not
processed locally. Otherwise a message with an id resolves (and removes)
the pending callback — invoking it, decrementing
`_pendingResponsesCount` and clearing long-poll tracking — or reports a
wrong-id protocol error; a message without an id but with a method is
dispatched to the target; one with neither reports a protocol error. -/
def _onMessage (st : RouterState) (msg : IncomingMessage) : RouterState :=
  let okProxies := st.sessions.filterMap
    (fun s => s.2.proxyConnection.bind
      (fun p => if p.hasOnMessage then some p else none))
  let badProxyCount := (st.sessions.filter
    (fun s => match s.2.proxyConnection with
      | some p => !p.hasOnMessage
      | none => false)).length
  let suppressUnknownMessageErrors := !okProxies.isEmpty
  let st :=
    { st with
        proxyForwards := st.proxyForwards ++ okProxies.map (fun p => (p.connId, msg)),
        protocolErrors := st.protocolErrors + badProxyCount }
  let sessionId := msg.sessionId.getD ""
  match getAssoc st.sessions sessionId with
  | none =>
      if suppressUnknownMessageErrors then st
      else { st with protocolErrors := st.protocolErrors + 1 }
  | some session =>
      if session.proxyConnection.isSome then st
      else
        match msg.id with
        | some id =>
            let cb := getAssoc session.callbacks id
            let session := { session with callbacks := eraseAssoc session.callbacks id }
            let st := { st with sessions := setAssoc st.sessions sessionId session }
            match cb with
            | none =>
                if suppressUnknownMessageErrors then st
                else { st with protocolErrors := st.protocolErrors + 1 }
            | some entry =>
                { st with
                    invoked := st.invoked ++ [(entry.cbId, CallbackOutcome.response msg.error msg.result)],
                    pendingResponsesCount := st.pendingResponsesCount - 1,
                    pendingLongPollingMessageIds :=
                      eraseIdSet id st.pendingLongPollingMessageIds }
        | none =>
            match msg.method with
            | none => { st with protocolErrors := st.protocolErrors + 1 }
            | some _ =>
                { st with dispatchedEvents := st.dispatchedEvents ++ [(session.targetId, msg)] }

/-- One externally triggered operation on a `SessionRouter`. -/
inductive RouterOp
  | send (sessionId domain method : String) (params : Option Nat) (cbId : Nat)
  | register (targetId : Nat) (sessionId : String) (proxyConnection : Option ProxyConn)
  | unregister (sessionId : String)
  | message (msg : IncomingMessage)

/-- Apply one operation. -/
def applyRouterOp (st : RouterState) : RouterOp → RouterState
  | .send sessionId domain method params cbId => sendMessage st sessionId domain method params cbId
  | .register targetId sessionId proxy => registerSession st targetId sessionId proxy
  | .unregister sessionId => unregisterSession st sessionId
  | .message msg => _onMessage st msg

/-- Run a sequence of operations. -/
def runRouterOps (st : RouterState) (ops : List RouterOp) : RouterState :=
  ops.foldl applyRouterOp st

/-- A callback id `c` is clear of the router: it was never invoked and no
session holds a pending callback with it. -/
def routerCbClear (st : RouterState) (c : Nat) : Prop :=
  (∀ e ∈ st.invoked, e.1 ≠ c) ∧
  (∀ s ∈ st.sessions, ∀ kv ∈ s.2.callbacks, kv.2.cbId ≠ c)

/-- An operation never introduces the callback id `c` (new sends use fresh
callback identities). -/
def routerOpFresh (c : Nat) : RouterOp → Prop
  | .send _ _ _ _ cbId => cbId ≠ c
  | _ => True

/-! ## _AgentPrototype command invocation and coalescing
(part_000 lines 998-1242) -/

/-- Line 1012: the fixed coalescing allowlist
`['DOM.getBoxModel', 'DOM.getNodeForLocation', 'CSS.getComputedStyleForNode']`. -/
def debouncedMethods : List String :=
  ["DOM.getBoxModel", "DOM.getNodeForLocation", "CSS.getComputedStyleForNode"]

/-- One request handed by `_invoke` to `router.sendMessage`: the method,
the request payload (by identity) and the callback (by identity). -/
structure AgentSend where
  method : String
  msgId : Nat
  cbId : Nat
deriving DecidableEq

/-- The coalescing-relevant state of one agent (fields of lines 1004-1006)
plus histories: `sends` are the messages handed to the router in order,
`responded` the requests whose response arrived, `resolvedCbs` the
callbacks run with a response (resolving their promise), `connErrorCbs`
the callbacks given the synthesized connection-closed error.
`routerAttached` models `this._target._router` being non-null. -/
structure AgentState where
  routerAttached : Bool
  unresolvedMessages : List (String × Nat)
  cachedMessages : List (String × (Nat × Nat))
  sends : List AgentSend
  responded : List Nat
  resolvedCbs : List Nat
  connErrorCbs : List Nat
deriving DecidableEq

/-- A fresh agent on a live target: empty caches, no traffic. -/
def AgentState.initial : AgentState :=
  ⟨true, [], [], [], [], [], []⟩

/-- `this._unresolvedMessages[method]` read with JS semantics: a missing
key is falsy (0). -/
def unresolvedCount (st : AgentState) (method : String) : Nat :=
  (getAssoc st.unresolvedMessages method).getD 0

/-- `_AgentPrototype._invoke` (lines 1124-1241), the part that runs at call
time. With no router attached, the connection-closed error is synthesized
for the callback. For a debounced method: if no request for it is
unresolved and none is cached, mark it unresolved and send; if none is
unresolved but one is cached, send the cached one and cache this call
(lines 1221-1228, which leave the unresolved mark unset); if one is
unresolved, cache this call, overwriting any previously cached call (line
1234) — the overwritten call is dropped. A non-debounced method is sent
directly. `msgId` stands for the request payload, `cbId` for the callback
identity. -/
def _invoke (st : AgentState) (method : String) (msgId cbId : Nat) : AgentState :=
  if !st.routerAttached then
    { st with connErrorCbs := st.connErrorCbs ++ [cbId] }
  else if method ∈ debouncedMethods then
    if unresolvedCount st method = 0 then
      match getAssoc st.cachedMessages method with
      | none =>
          { st with
              unresolvedMessages := setAssoc st.unresolvedMessages method 1,
              sends := st.sends ++ [⟨method, msgId, cbId⟩] }
      | some cached =>
          { st with
              sends := st.sends ++ [⟨method, cached.1, cached.2⟩],
              cachedMessages := setAssoc st.cachedMessages method (msgId, cbId) }
    else
      { st with cachedMessages := setAssoc st.cachedMessages method (msgId, cbId) }
  else
    { st with sends := st.sends ++ [⟨method, msgId, cbId⟩] }

/-- A response arriving for the request sent as `msgId`: the router invokes
the registered callback (lines 1136-1202). The callback resolves the
promise of its call (recorded in `resolvedCbs`) and, for a debounced
method, deletes the unresolved mark and — if a call is cached — sends it,
marks the method unresolved again and clears the cache (lines 1176-1198;
with no router at that point the cached send degrades to a connection
error). A response for an unknown or already answered request does
nothing here (the router would not find a callback for it). -/
def respondTo (st : AgentState) (msgId : Nat) : AgentState :=
  if msgId ∈ st.responded then st
  else
    match st.sends.find? (fun s => s.msgId = msgId) with
    | none => st
    | some s =>
        let st :=
          { st with
              responded := st.responded ++ [msgId],
              resolvedCbs := st.resolvedCbs ++ [s.cbId] }
        if s.method ∈ debouncedMethods then
          let st := { st with unresolvedMessages := eraseAssoc st.unresolvedMessages s.method }
          match getAssoc st.cachedMessages s.method with
          | none => st
          | some cached =>
              if !st.routerAttached then
                { st with connErrorCbs := st.connErrorCbs ++ [s.cbId] }
              else
                { st with
                    sends := st.sends ++ [⟨s.method, cached.1, cached.2⟩],
                    unresolvedMessages := setAssoc st.unresolvedMessages s.method 1,
                    cachedMessages := eraseAssoc st.cachedMessages s.method }
        else st

/-- Requests for `method` sent on the wire and not yet answered. -/
def outstanding (st : AgentState) (method : String) : Nat :=
  (st.sends.filter (fun s => s.method = method && !(st.responded.contains s.msgId))).length

/-- One operation on an agent: a call to `_invoke`, or a response arriving. -/
inductive AgentOp
  | inv (method : String) (msgId cbId : Nat)
  | resp (msgId : Nat)

/-- Apply one agent operation. -/
def applyAgentOp (st : AgentState) : AgentOp → AgentState
  | .inv method msgId cbId => _invoke st method msgId cbId
  | .resp msgId => respondTo st msgId

/-- Run a sequence of agent operations. -/
def runAgentOps (st : AgentState) (ops : List AgentOp) : AgentState :=
  ops.foldl applyAgentOp st

/-- Callback id `c` is absent from the agent: never resolved, never given
a connection error, attached to no sent request and to no cached call. -/
def agentCbAbsent (st : AgentState) (c : Nat) : Prop :=
  c ∉ st.resolvedCbs ∧ c ∉ st.connErrorCbs ∧
  (∀ s ∈ st.sends, s.cbId ≠ c) ∧
  (∀ kv ∈ st.cachedMessages, kv.2.2 ≠ c)

/-- An agent operation never introduces callback id `c`. -/
def agentOpFresh (c : Nat) : AgentOp → Prop
  | .inv _ _ cbId => cbId ≠ c
  | .resp _ => True

/-- The C1 scenario: three `_invoke` calls for the same debounced method in
rapid succession (no response in between), then the response to the first
request. Calls carry payloads 1, 2, 3 and callbacks 11, 12, 13. -/
def coalesceScenario (m : String) : AgentState :=
  respondTo (_invoke (_invoke (_invoke AgentState.initial m 1 11) m 2 12) m 3 13) 1

/-! ## _AgentPrototype parameter validation (part_000 lines 1039-1118) -/

/-- A parameter of a registered command schema (interface CommandParameter,
lines 99-103). -/
structure CommandParameter where
  name : String
  type : String
  optional : Bool
deriving DecidableEq

/-- A JS argument value, by its `typeof` tag and an identity for the
payload. -/
structure JSVal where
  typeName : String
  payload : Nat
deriving DecidableEq

/-- The value `undefined` (what `args.shift()` yields on an empty array). -/
def undefinedVal : JSVal := ⟨"undefined", 0⟩

/-- The validation error messages of lines 1051-1053, 1063-1065 and 1074
(dynamic detail elided). -/
def invalidCountError : String := "Protocol Error: Invalid number of arguments"

/-- See `invalidCountError`. -/
def invalidTypeError : String := "Protocol Error: Invalid type of argument"

/-- See `invalidCountError`. -/
def extraArgsError : String := "Protocol Error: Extra arguments"

/-- `_AgentPrototype._prepareParameters` (lines 1039-1079). Walks the
ordered schema, consuming one positional argument per parameter: an
exhausted argument list at a required parameter is an error; an undefined
value for an optional parameter is skipped; a `typeof` mismatch is an
error; leftover arguments after the loop are an error. `.error e` models
`errorCallback(e)` followed by `return null`; `.ok none` models returning
`null` with no error (no parameter was set); `.ok (some ps)` the built
params object. `acc` and `hasParams` carry the loop state. -/
def _prepareParameters (method : String) :
    List CommandParameter → List JSVal → List (String × JSVal) → Bool →
    Except String (Option (List (String × JSVal)))
  | [], args, acc, hasParams =>
      if args.length ≠ 0 then .error extraArgsError
      else .ok (if hasParams then some acc else none)
  | p :: ps, args, acc, hasParams =>
      if args.length = 0 ∧ p.optional = false then .error invalidCountError
      else
        let value := args.headD undefinedVal
        let rest := args.tail
        if p.optional = true ∧ value.typeName = "undefined" then
          _prepareParameters method ps rest acc hasParams
        else if value.typeName ≠ p.type then .error invalidTypeError
        else _prepareParameters method ps rest (acc ++ [(p.name, value)]) true

/-- The observable outcome of `_sendMessageToBackendPromise`
(lines 1081-1118). `validationFailure e` models: `e` was reported to the
error sink (`console.error` in `onError`), nothing was handed to the
router, and the returned promise resolves with `null` (never throws).
`connectionClosedError` models the synthesized asynchronous
connection-closed error when no router is attached. `sent ps` models
`router.sendMessage` being called with params `ps`. -/
inductive SendMessageResult
  | validationFailure (errorMessage : String)
  | connectionClosedError
  | sent (params : Option (List (String × JSVal)))
deriving DecidableEq

/-- `_AgentPrototype._sendMessageToBackendPromise` (lines 1081-1118):
validate, and on error resolve null; otherwise send via the router (or
synthesize a connection-closed error without one). -/
def _sendMessageToBackendPromise (routerAttached : Bool) (method : String)
    (parameters : List CommandParameter) (args : List JSVal) : SendMessageResult :=
  match _prepareParameters method parameters args [] false with
  | .error e => .validationFailure e
  | .ok params =>
      if routerAttached then .sent params else .connectionClosedError

/-! ## DispatcherManager (part_000 lines 1251-1303) -/

/-- A registered handler object: its identity and the set of property
names it implements (the `event in dispatcher` check of line 1296). -/
structure EventDispatcher where
  id : Nat
  implemented : List String
deriving DecidableEq

/-- The parameter object passed to handlers (line 1292): a shallow copy of
either the decompressed payload or the raw params. The same object is
passed to every handler of one dispatch. -/
inductive DispatchedParams
  | raw (payload : Option Nat)
  | decompressed (payload : Option Nat)
deriving DecidableEq

/-- An event message as seen by `DispatcherManager.dispatch` (interface
EventMessage, lines 75-79): qualified method, compression flag, params
payload by identity. -/
structure DMEventMessage where
  method : String
  compress : Bool
  params : Option Nat
deriving DecidableEq

/-- A `DispatcherManager`: the per-domain event-parameter-name table
shared through the registry (keyed by qualified event name, see
`registerEvent`, lines 245-250) and the registered handlers in
registration order. -/
structure DispatcherManager where
  eventArgs : List (String × List String)
  dispatchers : List EventDispatcher
deriving DecidableEq

/-- `addDomainDispatcher` (lines 1259-1261): `this.dispatchers.push(dispatcher)`. -/
def DispatcherManager.addDomainDispatcher (dm : DispatcherManager)
    (d : EventDispatcher) : DispatcherManager :=
  { dm with dispatchers := dm.dispatchers ++ [d] }

/-- The handler loop of lines 1293-1301: each registered dispatcher that
implements the unqualified event name is called with the parameter
object, in order. Returns the invocations performed. -/
def dispatchLoop (event : String) (messageParams : DispatchedParams) :
    List EventDispatcher → List (Nat × DispatchedParams)
  | [] => []
  | d :: ds =>
      if event ∈ d.implemented then
        (d.id, messageParams) :: dispatchLoop event messageParams ds
      else dispatchLoop event messageParams ds

/-- The result of one `dispatch` call: the handler invocations performed
(handler identity and the parameter object passed) and whether the
unspecified-event protocol warning was reported. -/
structure DispatchResult where
  invocations : List (Nat × DispatchedParams)
  warned : Bool
deriving DecidableEq

/-- The parameter object built at line 1292 (decompression of lines
1278-1285 modelled abstractly: it is a function of the params payload). -/
def dispatchParamsOf (msg : DMEventMessage) : DispatchedParams :=
  if msg.compress then .decompressed msg.params else .raw msg.params

/-- `DispatcherManager.dispatch` (lines 1271-1302): return immediately
with zero registered dispatchers; report a protocol warning and drop an
event whose qualified method is not in the event-parameter-name table;
otherwise invoke every dispatcher implementing the unqualified name with
the one parameter object, in registration order. -/
def DispatcherManager.dispatch (dm : DispatcherManager) (event : String)
    (msg : DMEventMessage) : DispatchResult :=
  if dm.dispatchers.isEmpty then ⟨[], false⟩
  else if getAssoc dm.eventArgs msg.method = none then ⟨[], true⟩
  else ⟨dispatchLoop event (dispatchParamsOf msg) dm.dispatchers, false⟩

/-! ## DOMModelUndoStack (part_000 lines 3000-3079)

Models are identified by `Nat`. `backendMarkCalls` records the
`model._agent.invoke_markUndoableState()` backend calls. The `await` in
the major branch is modelled as resolving in place; in the C6 scenario the
final call is major, so the final state does not depend on when the
deferred `_lastModelWithMinorChange = null` assignments run. -/

/-- The undo stack state (fields of lines 3001-3003). -/
structure UndoStackState where
  stack : List Nat
  index : Nat
  lastModelWithMinorChange : Option Nat
  backendMarkCalls : List Nat
deriving DecidableEq

/-- The constructor state (lines 3004-3008). -/
def UndoStackState.initial : UndoStackState := ⟨[], 0, none, []⟩

/-- The body of `_markUndoableState` after the model-switch flush (lines
3029-3046): no-op for a repeat minor change on the model last marked
minor; otherwise truncate the stack at the index (discarding redo
history), push the model, point the index past it, and either remember
the pending minor change or issue the backend mark call. -/
def markCore (st : UndoStackState) (model : Nat) (minorChange : Bool) : UndoStackState :=
  if minorChange = true ∧ st.lastModelWithMinorChange = some model then st
  else
    let stack := st.stack.take st.index ++ [model]
    if minorChange then
      { stack := stack, index := stack.length,
        lastModelWithMinorChange := some model,
        backendMarkCalls := st.backendMarkCalls }
    else
      { stack := stack, index := stack.length,
        lastModelWithMinorChange := none,
        backendMarkCalls := st.backendMarkCalls ++ [model] }

/-- `DOMModelUndoStack._markUndoableState` (lines 3021-3046). If a
different model has a pending minor change, it is flushed first: the
source calls `this._lastModelWithMinorChange.markUndoableState()`, which
re-enters `_markUndoableState` with that model and `minorChange = false`
(DOMModel.markUndoableState, lines 2870-2872); that nested call is
inlined here as `markCore`, which is exact because its own flush guard
compares the pending model with itself and its minor-change guard has
`minorChange = false`. After the flush the field is nulled and the main
body runs. -/
def _markUndoableState (st : UndoStackState) (model : Nat) (minorChange : Bool) :
    UndoStackState :=
  match st.lastModelWithMinorChange with
  | some m =>
      if m ≠ model then
        let st := markCore st m false
        markCore { st with lastModelWithMinorChange := none } model minorChange
      else markCore st model minorChange
  | none => markCore st model minorChange

/-- The C6 scenario with models `a` and `b`: three minor marks on `a`,
then a major mark on `b`. -/
def undoScenario (a b : Nat) : UndoStackState :=
  _markUndoableState
    (_markUndoableState
      (_markUndoableState
        (_markUndoableState UndoStackState.initial a true) a true) a true)
    b false

/-- The id-monotonicity invariant of a router run: the ids handed out so
far are exactly 1, 2, ..., the counter sits one past them, and the
messages on the wire carry strictly increasing ids below the counter. -/
def routerIdInv (st : RouterState) : Prop :=
  st.issuedIds = List.range' 1 st.issuedIds.length ∧
  st.lastMessageId = 1 + st.issuedIds.length ∧
  (∀ w ∈ st.wire, w.id < st.lastMessageId) ∧
  List.Pairwise (· < ·) (st.wire.map WireMessage.id)

/-! ## Association list lemmas -/

theorem getAssoc_mem {κ α : Type} [DecidableEq κ] {l : List (κ × α)} {k : κ} {v : α}
    (h : getAssoc l k = some v) : (k, v) ∈ l := by
  induction l with
  | nil => simp [getAssoc] at h
  | cons hd tl ih =>
      rw [getAssoc] at h
      split at h
      · rename_i hk
        cases h
        have hhd : (k, hd.2) = hd := by rw [← hk]
        rw [hhd]
        exact List.mem_cons_self _ _
      · exact List.mem_cons_of_mem _ (ih h)

theorem setAssoc_mem {κ α : Type} [DecidableEq κ] {l : List (κ × α)} {k : κ} {v : α}
    {x : κ × α} (h : x ∈ setAssoc l k v) : x ∈ l ∨ x = (k, v) := by
  induction l with
  | nil => simp [setAssoc] at h; right; exact h
  | cons hd tl ih =>
      rw [setAssoc] at h
      split at h
      · rename_i hk
        rcases List.mem_cons.mp h with h1 | h1
        · right; rw [h1, hk]
        · left; exact List.mem_cons_of_mem _ h1
      · rcases List.mem_cons.mp h with h1 | h1
        · left; rw [h1]; exact List.mem_cons_self _ _
        · rcases ih h1 with h2 | h2
          · left; exact List.mem_cons_of_mem _ h2
          · right; exact h2

theorem eraseAssoc_subset {κ α : Type} [DecidableEq κ] {l : List (κ × α)} {k : κ}
    {x : κ × α} (h : x ∈ eraseAssoc l k) : x ∈ l := by
  induction l with
  | nil => simp [eraseAssoc] at h
  | cons hd tl ih =>
      rw [eraseAssoc] at h
      split at h
      · exact List.mem_cons_of_mem _ h
      · rcases List.mem_cons.mp h with h1 | h1
        · rw [h1]; exact List.mem_cons_self _ _
        · exact List.mem_cons_of_mem _ (ih h1)

theorem getAssoc_setAssoc_self {κ α : Type} [DecidableEq κ] (l : List (κ × α))
    (k : κ) (v : α) : getAssoc (setAssoc l k v) k = some v := by
  induction l with
  | nil => simp [setAssoc, getAssoc]
  | cons hd tl ih =>
      rw [setAssoc]
      split
      · rename_i hk
        rw [getAssoc, if_pos hk]
      · rename_i hk
        rw [getAssoc, if_neg hk]
        exact ih

/-! ## Splitting lemmas for qualified names -/

theorem jsSplitCharAux_no_sep (sep : Char) (s : List Char) (hs : sep ∉ s) :
    ∀ acc : List Char, jsSplitCharAux sep s acc = [acc.reverse ++ s] := by
  induction s with
  | nil => intro acc; simp [jsSplitCharAux]
  | cons c cs ih =>
      intro acc
      have hc : c ≠ sep := fun h => hs (h ▸ List.mem_cons_self c cs)
      have hcs : sep ∉ cs := fun h => hs (List.mem_cons_of_mem _ h)
      rw [jsSplitCharAux, if_neg hc, ih hcs]
      simp

theorem jsSplitCharAux_first_sep (sep : Char) (a b : List Char) (ha : sep ∉ a) :
    ∀ acc : List Char,
      jsSplitCharAux sep (a ++ sep :: b) acc =
        (acc.reverse ++ a) :: jsSplitCharAux sep b [] := by
  induction a with
  | nil =>
      intro acc
      rw [List.nil_append, jsSplitCharAux, if_pos rfl]
      simp
  | cons c cs ih =>
      intro acc
      have hc : c ≠ sep := fun h => ha (h ▸ List.mem_cons_self c cs)
      have hcs : sep ∉ cs := fun h => ha (List.mem_cons_of_mem _ h)
      rw [List.cons_append, jsSplitCharAux, if_neg hc, ih hcs]
      simp

/-- The claim C8 counterexample: on a string with two dots,
`splitQualifiedName` yields the segment between the dots (not the whole
tail after the first dot), so `qualifyName` of the two parts does not
reproduce the original string. -/
theorem splitQualifiedName_multiDot_cex :
    splitQualifiedName "A.b.c".toList = ("A".toList, some "b".toList) ∧
    qualifyName "A".toList "b".toList ≠ "A.b.c".toList := by
  constructor
  · decide
  · decide

/-- Claim C8 (amended): for a string with exactly one dot — written
`a ++ [.] ++ b` with parts free of dots — `splitQualifiedName` yields the
two parts and `qualifyName` reproduces the string; on strings with more
than one dot the second component is only the segment between the first
and second dots. -/
theorem splitQualifiedName_roundtrip_single_dot (s a b : List Char)
    (hs : s = a ++ '.' :: b) (ha : '.' ∉ a) (hb : '.' ∉ b) :
    splitQualifiedName s = (a, some b) ∧ qualifyName a b = s := by
  subst hs
  constructor
  · rw [splitQualifiedName]
    have : jsSplitChar '.' (a ++ '.' :: b) = a :: [b] := by
      rw [jsSplitChar, jsSplitCharAux_first_sep '.' a b ha,
        jsSplitCharAux_no_sep '.' b hb]
      simp
    rw [this]
    rfl
  · rfl

/-- Witness for the amended C8 theorem at the concrete input "DOM.enable". -/
theorem splitQualifiedName_roundtrip_witness :
    splitQualifiedName "DOM.enable".toList = ("DOM".toList, some "enable".toList) ∧
    qualifyName "DOM".toList "enable".toList = "DOM.enable".toList :=
  splitQualifiedName_roundtrip_single_dot "DOM.enable".toList "DOM".toList
    "enable".toList (by decide) (by decide) (by decide)

/-! ## TargetBase construction (claim C4) -/

/-- The claim C4 counterexample: a connection supplied with no parent
target and no sessionId is one of the claimed valid shapes (the bare
connection shape), yet the constructor check of line 625 throws on it
(`!parentTarget && connection`). -/
theorem targetBase_construction_claim_cex :
    targetBaseConstructorThrows false "" true = true ∧
    specValidTargetArgs false "" true = true := by
  decide

/-- Claim C4 (amended): construction is accepted iff either a parent
target is supplied together with at most one of sessionId and connection,
or no parent target is supplied and neither a sessionId nor a connection
is. In particular a connection with no parent target is a fatal
construction error, a parent target alone is accepted (falling back to
the connection factory), and supplying both a connection and a sessionId
is always fatal. -/
theorem targetBase_construction_accepts_iff (p c : Bool) (s : String) :
    targetBaseConstructorThrows p s c = false ↔
      ((p = true ∧ (c = false ∨ s = "")) ∨ (p = false ∧ c = false ∧ s = "")) := by
  cases p <;> cases c <;> by_cases hs : s = "" <;>
    simp [targetBaseConstructorThrows, hs]

/-! ## Undo stack (claim C6) -/

/-- The claim C6 counterexample: three minor marks on model 0 then a major
mark on model 1 leave three entries on the stack, not two — the
model-switch flush re-pushes model 0 (nested markUndoableState with
minorChange false) before model 1 is pushed. -/
theorem markUndoableState_scenario_cex :
    (undoScenario 0 1).stack = [0, 0, 1] ∧ (undoScenario 0 1).index = 3 := by
  decide

/-- Claim C6 (amended): for distinct models `a` and `b`, three minor marks
on `a` followed by a major mark on `b` leave exactly three stack entries
`[a, a, b]` — the coalesced minor entry for `a`, the duplicate entry
pushed by the flush of the pending minor change of `a`, and the major
entry for `b` — with the index pointing past the last entry and backend
mark calls issued for `a` (the flush) and `b`. -/
theorem markUndoableState_minor_flush (a b : Nat) (hab : a ≠ b) :
    (undoScenario a b).stack = [a, a, b] ∧
    (undoScenario a b).index = 3 ∧
    (undoScenario a b).lastModelWithMinorChange = none ∧
    (undoScenario a b).backendMarkCalls = [a, b] := by
  have hba : ¬a = b := hab
  simp [undoScenario, _markUndoableState, markCore, UndoStackState.initial, hba]

/-- Witness for the amended C6 theorem at models 0 and 1. -/
theorem markUndoableState_minor_flush_witness :
    (undoScenario 0 1).stack = [0, 0, 1] ∧
    (undoScenario 0 1).index = 3 ∧
    (undoScenario 0 1).lastModelWithMinorChange = none ∧
    (undoScenario 0 1).backendMarkCalls = [0, 1] :=
  markUndoableState_minor_flush 0 1 (by decide)

/-! ## Parameter validation (claim C7) -/

/-- With no arguments supplied, walking a schema that contains some
required parameter always hits the invalid-argument-count error: optional
parameters ahead of it consume the undefined shift result and are
skipped. -/
theorem prepareParameters_no_args_required_error (method : String) :
    ∀ (parameters : List CommandParameter) (acc : List (String × JSVal)) (hp : Bool),
      (∃ p ∈ parameters, p.optional = false) →
      _prepareParameters method parameters [] acc hp = .error invalidCountError := by
  intro parameters
  induction parameters with
  | nil =>
      intro acc hp h
      rcases h with ⟨p, hmem, _⟩
      exact absurd hmem (List.not_mem_nil p)
  | cons p ps ih =>
      intro acc hp h
      rw [_prepareParameters]
      by_cases hopt : p.optional = false
      · rw [if_pos ⟨rfl, hopt⟩]
      · have hopt' : p.optional = true := by
          cases hpo : p.optional
          · exact absurd hpo hopt
          · rfl
        have hps : ∃ q ∈ ps, q.optional = false := by
          rcases h with ⟨q, hmem, hq⟩
          rcases List.mem_cons.mp hmem with rfl | hmem'
          · exact absurd hq hopt
          · exact ⟨q, hmem', hq⟩
        rw [if_neg (by simp [hopt'])]
        simp only [List.headD, List.tail]
        rw [if_pos ⟨hopt', rfl⟩]
        exact ih acc hp hps

/-- Claim C7: for a command whose schema contains a required parameter,
invoking with zero arguments yields the validation error (surfaced to the
error sink), the command is never handed to the router, and the call
resolves — never throws — with a null result (`validationFailure` models
exactly: error reported, nothing sent, promise resolved with null). -/
theorem sendMessage_missing_required_validationFailure (routerAttached : Bool)
    (method : String) (parameters : List CommandParameter)
    (h : ∃ p ∈ parameters, p.optional = false) :
    _prepareParameters method parameters [] [] false = .error invalidCountError ∧
    _sendMessageToBackendPromise routerAttached method parameters [] =
      .validationFailure invalidCountError := by
  have hprep := prepareParameters_no_args_required_error method parameters [] false h
  refine ⟨hprep, ?_⟩
  rw [_sendMessageToBackendPromise, hprep]

/-- Witness for C7: the spec example schema, one required number
parameter, invoked with zero arguments. -/
theorem sendMessage_missing_required_witness :
    _prepareParameters "DOM.setAttributeValue" [⟨"x", "number", false⟩] [] [] false =
      .error invalidCountError ∧
    _sendMessageToBackendPromise true "DOM.setAttributeValue"
      [⟨"x", "number", false⟩] [] = .validationFailure invalidCountError :=
  sendMessage_missing_required_validationFailure true "DOM.setAttributeValue"
    [⟨"x", "number", false⟩] ⟨⟨"x", "number", false⟩, by decide, rfl⟩

/-! ## Dispatcher fan-out (claim C5) -/

/-- The handler loop equals a filter of the registration list: exactly the
dispatchers implementing the event, in registration order, each paired
with the one parameter object. -/
theorem dispatchLoop_eq_filter_map (event : String) (ps : DispatchedParams) :
    ∀ ds : List EventDispatcher,
      dispatchLoop event ps ds =
        (ds.filter (fun d => event ∈ d.implemented)).map (fun d => (d.id, ps)) := by
  intro ds
  induction ds with
  | nil => rfl
  | cons d rest ih =>
      rw [dispatchLoop]
      by_cases hd : event ∈ d.implemented
      · rw [if_pos hd, List.filter_cons_of_pos (by simpa using hd), List.map_cons, ih]
      · rw [if_neg hd, List.filter_cons_of_neg (by simpa using hd), ih]

/-- Claim C5: when the qualified event name is in the event-parameter-name
table, dispatch invokes exactly the registered handlers that implement the
unqualified name, in registration order, each with the same parameter
object, and reports no warning; with zero registered handlers dispatch is
a no-op (no invocation, no warning) regardless of the table; and
`addDomainDispatcher` appends to the registration order. -/
theorem dispatcherManager_dispatch_fanout (dm : DispatcherManager)
    (event : String) (msg : DMEventMessage) :
    (getAssoc dm.eventArgs msg.method ≠ none →
      dm.dispatch event msg =
        ⟨(dm.dispatchers.filter (fun d => event ∈ d.implemented)).map
            (fun d => (d.id, dispatchParamsOf msg)), false⟩) ∧
    (dm.dispatchers = [] → dm.dispatch event msg = ⟨[], false⟩) ∧
    (∀ d, (dm.addDomainDispatcher d).dispatchers = dm.dispatchers ++ [d]) := by
  refine ⟨?_, ?_, fun d => rfl⟩
  · intro h
    rw [DispatcherManager.dispatch]
    by_cases he : dm.dispatchers.isEmpty
    · rw [if_pos he]
      rw [List.isEmpty_iff] at he
      rw [he, List.filter_nil, List.map_nil]
    · rw [if_neg he, if_neg h, dispatchLoop_eq_filter_map]
  · intro h
    rw [DispatcherManager.dispatch, if_pos (by rw [h]; rfl)]

/-! ## Coalescing (claim C1) -/

theorem not_mem_append_singleton {c x : Nat} {l : List Nat}
    (h : c ∉ l) (hx : x ≠ c) : c ∉ l ++ [x] := by
  intro hmem
  rcases List.mem_append.mp hmem with hm | hm
  · exact h hm
  · rw [List.mem_singleton] at hm
    exact hx hm.symm

theorem forall_mem_append_singleton {α : Type} {P : α → Prop} {l : List α} {x : α}
    (h : ∀ a ∈ l, P a) (hx : P x) : ∀ a ∈ l ++ [x], P a := by
  intro a ha
  rcases List.mem_append.mp ha with hm | hm
  · exact h a hm
  · rw [List.mem_singleton] at hm
    rw [hm]
    exact hx

theorem cached_setAssoc_absent {l : List (String × (Nat × Nat))} {c : Nat}
    (h : ∀ kv ∈ l, kv.2.2 ≠ c) {m : String} {p : Nat × Nat} (hp : p.2 ≠ c) :
    ∀ kv ∈ setAssoc l m p, kv.2.2 ≠ c := by
  intro kv hkv
  rcases setAssoc_mem hkv with hm | hm
  · exact h kv hm
  · rw [hm]
    exact hp

theorem cached_eraseAssoc_absent {l : List (String × (Nat × Nat))} {c : Nat}
    (h : ∀ kv ∈ l, kv.2.2 ≠ c) (m : String) :
    ∀ kv ∈ eraseAssoc l m, kv.2.2 ≠ c :=
  fun kv hkv => h kv (eraseAssoc_subset hkv)

/-- `_invoke` with a fresh callback keeps an absent callback absent. -/
theorem agentCbAbsent_invoke (st : AgentState) (c : Nat) (method : String)
    (msgId cbId : Nat) (hcb : cbId ≠ c) (h : agentCbAbsent st c) :
    agentCbAbsent (_invoke st method msgId cbId) c := by
  obtain ⟨h1, h2, h3, h4⟩ := h
  rw [_invoke]
  split
  · exact ⟨h1, not_mem_append_singleton h2 hcb, h3, h4⟩
  · split
    · split
      · split
        · exact ⟨h1, h2, forall_mem_append_singleton h3 hcb, h4⟩
        · rename_i cached hc
          have hcached : cached.2 ≠ c := h4 (method, cached) (getAssoc_mem hc)
          exact ⟨h1, h2, forall_mem_append_singleton h3 hcached,
            cached_setAssoc_absent h4 hcb⟩
      · exact ⟨h1, h2, h3, cached_setAssoc_absent h4 hcb⟩
    · exact ⟨h1, h2, forall_mem_append_singleton h3 hcb, h4⟩

/-- A response arriving keeps an absent callback absent: the router only
invokes callbacks that were registered by some send. -/
theorem agentCbAbsent_respond (st : AgentState) (c : Nat) (msgId : Nat)
    (h : agentCbAbsent st c) : agentCbAbsent (respondTo st msgId) c := by
  obtain ⟨h1, h2, h3, h4⟩ := h
  simp only [respondTo]
  split
  · exact ⟨h1, h2, h3, h4⟩
  · split
    · exact ⟨h1, h2, h3, h4⟩
    · rename_i s hs
      have hscb : s.cbId ≠ c := h3 s (List.mem_of_find?_eq_some hs)
      split
      · split
        · exact ⟨not_mem_append_singleton h1 hscb, h2, h3, h4⟩
        · rename_i cached hc
          have hcached : cached.2 ≠ c := h4 (s.method, cached) (getAssoc_mem hc)
          split
          · exact ⟨not_mem_append_singleton h1 hscb,
              not_mem_append_singleton h2 hscb, h3, h4⟩
          · exact ⟨not_mem_append_singleton h1 hscb, h2,
              forall_mem_append_singleton h3 hcached,
              cached_eraseAssoc_absent h4 s.method⟩
      · exact ⟨not_mem_append_singleton h1 hscb, h2, h3, h4⟩

/-- Absent callbacks stay absent under any operation that uses a fresh
callback identity. -/
theorem agentCbAbsent_step (st : AgentState) (c : Nat) (op : AgentOp)
    (hop : agentOpFresh c op) (h : agentCbAbsent st c) :
    agentCbAbsent (applyAgentOp st op) c := by
  cases op with
  | inv method msgId cbId => exact agentCbAbsent_invoke st c method msgId cbId hop h
  | resp msgId => exact agentCbAbsent_respond st c msgId h

/-- Absent callbacks stay absent under any run of fresh operations: in
particular they are never resolved and never given a connection error. -/
theorem agentCbAbsent_run (c : Nat) :
    ∀ (ops : List AgentOp) (st : AgentState), agentCbAbsent st c →
      (∀ op ∈ ops, agentOpFresh c op) → agentCbAbsent (runAgentOps st ops) c := by
  intro ops
  induction ops with
  | nil => intro st h _; exact h
  | cons op rest ih =>
      intro st h hops
      exact ih (applyAgentOp st op)
        (agentCbAbsent_step st c op (hops op (List.mem_cons_self _ _)) h)
        (fun o ho => hops o (List.mem_cons_of_mem _ ho))


/-- Claim C1: for a debounced method, three `_invoke` calls in rapid
succession while the first request is outstanding (payloads 1, 2, 3,
callbacks 11, 12, 13) followed by the response to the first request send
exactly two messages on the wire — the first request and the third call
request — the second call callback (12) is attached to nothing, is never
resolved by any future sequence of operations with fresh callbacks, and
at no point is more than one request for the method outstanding. -/
theorem invoke_debounced_coalescing (m : String) (hm : m ∈ debouncedMethods) :
    (coalesceScenario m).sends = [⟨m, 1, 11⟩, ⟨m, 3, 13⟩] ∧
    (coalesceScenario m).resolvedCbs = [11] ∧
    agentCbAbsent (coalesceScenario m) 12 ∧
    (∀ ops : List AgentOp, (∀ op ∈ ops, agentOpFresh 12 op) →
      12 ∉ (runAgentOps (coalesceScenario m) ops).resolvedCbs ∧
      12 ∉ (runAgentOps (coalesceScenario m) ops).connErrorCbs) ∧
    outstanding (_invoke AgentState.initial m 1 11) m ≤ 1 ∧
    outstanding (_invoke (_invoke AgentState.initial m 1 11) m 2 12) m ≤ 1 ∧
    outstanding (_invoke (_invoke (_invoke AgentState.initial m 1 11) m 2 12) m 3 13) m ≤ 1 ∧
    outstanding (coalesceScenario m) m ≤ 1 := by
  have habs : agentCbAbsent (coalesceScenario m) 12 := by
    fin_cases hm <;> exact ⟨by decide, by decide, by decide, by decide⟩
  refine ⟨?_, ?_, habs, fun ops hops => ?_, ?_, ?_, ?_, ?_⟩
  · fin_cases hm <;> decide
  · fin_cases hm <;> decide
  · have h2 := agentCbAbsent_run 12 ops (coalesceScenario m) habs hops
    exact ⟨h2.1, h2.2.1⟩
  · fin_cases hm <;> decide
  · fin_cases hm <;> decide
  · fin_cases hm <;> decide
  · fin_cases hm <;> decide

/-- Witness for C1 at the concrete debounced method DOM.getBoxModel. -/
theorem invoke_debounced_coalescing_witness :
    (coalesceScenario "DOM.getBoxModel").sends =
      [⟨"DOM.getBoxModel", 1, 11⟩, ⟨"DOM.getBoxModel", 3, 13⟩] ∧
    (coalesceScenario "DOM.getBoxModel").resolvedCbs = [11] ∧
    agentCbAbsent (coalesceScenario "DOM.getBoxModel") 12 ∧
    (∀ ops : List AgentOp, (∀ op ∈ ops, agentOpFresh 12 op) →
      12 ∉ (runAgentOps (coalesceScenario "DOM.getBoxModel") ops).resolvedCbs ∧
      12 ∉ (runAgentOps (coalesceScenario "DOM.getBoxModel") ops).connErrorCbs) ∧
    outstanding (_invoke AgentState.initial "DOM.getBoxModel" 1 11) "DOM.getBoxModel" ≤ 1 ∧
    outstanding (_invoke (_invoke AgentState.initial "DOM.getBoxModel" 1 11) "DOM.getBoxModel" 2 12) "DOM.getBoxModel" ≤ 1 ∧
    outstanding (_invoke (_invoke (_invoke AgentState.initial "DOM.getBoxModel" 1 11) "DOM.getBoxModel" 2 12) "DOM.getBoxModel" 3 13) "DOM.getBoxModel" ≤ 1 ∧
    outstanding (coalesceScenario "DOM.getBoxModel") "DOM.getBoxModel" ≤ 1 :=
  invoke_debounced_coalescing "DOM.getBoxModel" (by decide)

/-! ## Message id monotonicity (claim C2) -/

/-- Transfer of the id invariant along a step that issues exactly one id
and appends at most one message carrying it. -/
theorem routerIdInv_extend (st st' : RouterState)
    (hIssued : st'.issuedIds = st.issuedIds ++ [st.lastMessageId])
    (hLast : st'.lastMessageId = st.lastMessageId + 1)
    (hWire : st'.wire = st.wire ∨
      ∃ w : WireMessage, w.id = st.lastMessageId ∧ st'.wire = st.wire ++ [w])
    (h : routerIdInv st) : routerIdInv st' := by
  obtain ⟨h1, h2, h3, h4⟩ := h
  refine ⟨?_, ?_, ?_, ?_⟩
  · rw [hIssued]
    simp only [List.length_append, List.length_singleton]
    rw [List.range'_1_concat, ← h1, ← h2]
  · rw [hLast, hIssued]
    simp only [List.length_append, List.length_singleton]
    omega
  · intro w hw
    rw [hLast]
    rcases hWire with hW | ⟨w', hid, hW⟩
    · rw [hW] at hw
      have := h3 w hw
      omega
    · rw [hW] at hw
      rcases List.mem_append.mp hw with hm | hm
      · have := h3 w hm
        omega
      · rw [List.mem_singleton] at hm
        rw [hm, hid]
        omega
  · rcases hWire with hW | ⟨w', hid, hW⟩
    · rw [hW]
      exact h4
    · rw [hW, List.map_append]
      refine List.pairwise_append.mpr ⟨h4, by simp, ?_⟩
      intro a ha b hb
      simp only [List.map_cons, List.map_nil, List.mem_singleton] at hb
      rcases List.mem_map.mp ha with ⟨w, hwmem, hwa⟩
      rw [hb, hid, ← hwa]
      exact h3 w hwmem

/-- `sendMessage` issues exactly one id and appends at most one message
carrying it. -/
theorem sendMessage_shape (st : RouterState) (sessionId domain method : String)
    (params : Option Nat) (cbId : Nat) :
    (sendMessage st sessionId domain method params cbId).issuedIds =
      st.issuedIds ++ [st.lastMessageId] ∧
    (sendMessage st sessionId domain method params cbId).lastMessageId =
      st.lastMessageId + 1 ∧
    ((sendMessage st sessionId domain method params cbId).wire = st.wire ∨
      ∃ w : WireMessage, w.id = st.lastMessageId ∧
        (sendMessage st sessionId domain method params cbId).wire = st.wire ++ [w]) := by
  simp only [sendMessage, _nextMessageId]
  repeat' split
  all_goals refine ⟨rfl, rfl, ?_⟩
  all_goals first
    | exact Or.inl rfl
    | exact Or.inr ⟨_, rfl, rfl⟩

/-- `registerSession` leaves the id fields and the wire alone. -/
theorem registerSession_frame_ids (st : RouterState) (t : Nat) (sid : String)
    (p : Option ProxyConn) :
    (registerSession st t sid p).issuedIds = st.issuedIds ∧
    (registerSession st t sid p).lastMessageId = st.lastMessageId ∧
    (registerSession st t sid p).wire = st.wire := by
  simp only [registerSession]
  split <;> exact ⟨rfl, rfl, rfl⟩

/-- `unregisterSession` leaves the id fields and the wire alone. -/
theorem unregisterSession_frame_ids (st : RouterState) (sid : String) :
    (unregisterSession st sid).issuedIds = st.issuedIds ∧
    (unregisterSession st sid).lastMessageId = st.lastMessageId ∧
    (unregisterSession st sid).wire = st.wire := by
  simp only [unregisterSession]
  split <;> exact ⟨rfl, rfl, rfl⟩

/-- `_onMessage` never writes to the wire and never issues ids. -/
theorem onMessage_frame_ids (st : RouterState) (msg : IncomingMessage) :
    (_onMessage st msg).issuedIds = st.issuedIds ∧
    (_onMessage st msg).lastMessageId = st.lastMessageId ∧
    (_onMessage st msg).wire = st.wire := by
  simp only [_onMessage]
  repeat' split
  all_goals exact ⟨rfl, rfl, rfl⟩

/-- The invariant transfers along frame-preserving steps. -/
theorem routerIdInv_frame (st st' : RouterState)
    (e1 : st'.issuedIds = st.issuedIds) (e2 : st'.lastMessageId = st.lastMessageId)
    (e3 : st'.wire = st.wire) (h : routerIdInv st) : routerIdInv st' := by
  obtain ⟨h1, h2, h3, h4⟩ := h
  refine ⟨?_, ?_, ?_, ?_⟩
  · rw [e1]; exact h1
  · rw [e2, e1]; exact h2
  · rw [e3, e2]; exact h3
  · rw [e3]; exact h4

/-- Every router operation preserves the id invariant. -/
theorem routerIdInv_step (st : RouterState) (op : RouterOp) (h : routerIdInv st) :
    routerIdInv (applyRouterOp st op) := by
  cases op with
  | send sid dom method params cbId =>
      obtain ⟨e1, e2, e3⟩ := sendMessage_shape st sid dom method params cbId
      exact routerIdInv_extend st _ e1 e2 e3 h
  | register t sid p =>
      obtain ⟨e1, e2, e3⟩ := registerSession_frame_ids st t sid p
      exact routerIdInv_frame st _ e1 e2 e3 h
  | unregister sid =>
      obtain ⟨e1, e2, e3⟩ := unregisterSession_frame_ids st sid
      exact routerIdInv_frame st _ e1 e2 e3 h
  | message msg =>
      obtain ⟨e1, e2, e3⟩ := onMessage_frame_ids st msg
      exact routerIdInv_frame st _ e1 e2 e3 h

/-- The id invariant holds along every run from a state satisfying it. -/
theorem routerIdInv_run (ops : List RouterOp) :
    ∀ st : RouterState, routerIdInv st → routerIdInv (runRouterOps st ops) := by
  induction ops with
  | nil => intro st h; exact h
  | cons op rest ih =>
      intro st h
      exact ih (applyRouterOp st op) (routerIdInv_step st op h)

/-- Claim C2: on a fresh router, the values returned by `_nextMessageId`
along any sequence of operations are exactly 1, 2, 3, ... — strictly
increasing, starting at 1, never repeated — and consequently the ids of
the messages handed to the Connection by `sendMessage` are strictly
increasing: each sent message carries an id strictly greater than that of
every previously sent message. -/
theorem nextMessageId_strictly_increasing (ops : List RouterOp) :
    (runRouterOps RouterState.initial ops).issuedIds =
      List.range' 1 (runRouterOps RouterState.initial ops).issuedIds.length ∧
    List.Pairwise (· < ·) (runRouterOps RouterState.initial ops).issuedIds ∧
    (runRouterOps RouterState.initial ops).issuedIds.Nodup ∧
    ((runRouterOps RouterState.initial ops).issuedIds = [] ∨
      (runRouterOps RouterState.initial ops).issuedIds.head? = some 1) ∧
    List.Pairwise (· < ·)
      ((runRouterOps RouterState.initial ops).wire.map WireMessage.id) := by
  have hinit : routerIdInv RouterState.initial :=
    ⟨rfl, rfl, fun w hw => absurd hw (List.not_mem_nil w), List.Pairwise.nil⟩
  obtain ⟨h1, h2, h3, h4⟩ := routerIdInv_run ops RouterState.initial hinit
  refine ⟨h1, ?_, ?_, ?_, h4⟩
  · rw [h1]
    exact List.pairwise_lt_range' 1 _
  · rw [h1]
    exact List.nodup_range' 1 _
  · rcases hie : (runRouterOps RouterState.initial ops).issuedIds with _ | ⟨a, t⟩
    · exact Or.inl rfl
    · right
      rw [hie] at h1
      rw [List.length_cons, List.range'_succ] at h1
      injection h1 with ha _
      rw [ha]
      rfl

/-! ## Callbacks never invoked (shared by claims C3 and C9) -/

theorem setAssoc_mem_nodup {κ α : Type} [DecidableEq κ] {l : List (κ × α)}
    {k : κ} {v : α} {x : κ × α} (hnd : (l.map Prod.fst).Nodup)
    (h : x ∈ setAssoc l k v) : x = (k, v) ∨ (x ∈ l ∧ x.1 ≠ k) := by
  induction l with
  | nil =>
      rw [setAssoc] at h
      rw [List.mem_singleton] at h
      exact Or.inl h
  | cons hd tl ih =>
      rw [List.map_cons, List.nodup_cons] at hnd
      obtain ⟨hhd, htl⟩ := hnd
      rw [setAssoc] at h
      split at h
      · rename_i hk
        rcases List.mem_cons.mp h with h1 | h1
        · exact Or.inl (by rw [h1, hk])
        · right
          refine ⟨List.mem_cons_of_mem _ h1, fun hxk => ?_⟩
          exact hhd (by rw [hk, ← hxk]; exact List.mem_map_of_mem Prod.fst h1)
      · rename_i hk
        rcases List.mem_cons.mp h with h1 | h1
        · right
          refine ⟨by rw [h1]; exact List.mem_cons_self _ _, ?_⟩
          rw [h1]
          exact hk
        · rcases ih htl h1 with h2 | ⟨h2a, h2b⟩
          · exact Or.inl h2
          · exact Or.inr ⟨List.mem_cons_of_mem _ h2a, h2b⟩

/-- `sendMessage` with a fresh callback keeps a clear callback clear. -/
theorem routerCbClear_send (st : RouterState) (c : Nat)
    (sessionId domain method : String) (params : Option Nat) (cbId : Nat)
    (hcb : cbId ≠ c) (h : routerCbClear st c) :
    routerCbClear (sendMessage st sessionId domain method params cbId) c := by
  obtain ⟨h1, h2⟩ := h
  simp only [sendMessage, _nextMessageId]
  by_cases hm : method ∈ longPollingMethods <;>
    simp only [hm, if_true, if_false, ite_true, ite_false] <;>
    (split
     · exact ⟨h1, h2⟩
     · rename_i session hs
       refine ⟨h1, ?_⟩
       intro s hsmem kv hkv
       rcases setAssoc_mem hsmem with hmem | hmem
       · exact h2 s hmem kv hkv
       · subst hmem
         rcases setAssoc_mem hkv with hkv2 | hkv2
         · exact h2 (sessionId, session) (getAssoc_mem hs) kv hkv2
         · rw [hkv2]
           exact hcb)

/-- `registerSession` keeps a clear callback clear: the new session entry
starts with an empty callback map. -/
theorem routerCbClear_register (st : RouterState) (c : Nat) (tid : Nat)
    (sid : String) (p : Option ProxyConn) (h : routerCbClear st c) :
    routerCbClear (registerSession st tid sid p) c := by
  obtain ⟨h1, h2⟩ := h
  simp only [registerSession]
  split
  all_goals
    refine ⟨h1, ?_⟩
    intro s hsmem kv hkv
    rcases setAssoc_mem hsmem with hmem | hmem
    · exact h2 s hmem kv hkv
    · subst hmem
      exact absurd hkv (List.not_mem_nil kv)

/-- `unregisterSession` keeps a clear callback clear: it only ever invokes
callbacks that were registered in the removed session. -/
theorem routerCbClear_unregister (st : RouterState) (c : Nat) (sid : String)
    (h : routerCbClear st c) : routerCbClear (unregisterSession st sid) c := by
  obtain ⟨h1, h2⟩ := h
  simp only [unregisterSession]
  split
  · exact ⟨h1, h2⟩
  · rename_i session hs
    refine ⟨?_, ?_⟩
    · intro e he
      rcases List.mem_append.mp he with hm | hm
      · exact h1 e hm
      · rcases List.mem_map.mp hm with ⟨kv, hkvmem, hkv⟩
        rw [← hkv]
        exact h2 (sid, session) (getAssoc_mem hs) kv hkvmem
    · intro s hsmem kv hkv
      exact h2 s (eraseAssoc_subset hsmem) kv hkv

/-- `_onMessage` keeps a clear callback clear: it only ever invokes a
callback found in the owning session's callback map. -/
theorem routerCbClear_onMessage (st : RouterState) (c : Nat)
    (msg : IncomingMessage) (h : routerCbClear st c) :
    routerCbClear (_onMessage st msg) c := by
  obtain ⟨h1, h2⟩ := h
  simp only [_onMessage]
  split
  · split
    · exact ⟨h1, h2⟩
    · exact ⟨h1, h2⟩
  · rename_i session hs
    have hsmem : (msg.sessionId.getD "", session) ∈ st.sessions := getAssoc_mem hs
    split
    · exact ⟨h1, h2⟩
    · split
      · split
        · split
          · refine ⟨h1, ?_⟩
            intro s hsm kv hkv
            rcases setAssoc_mem hsm with hm | hm
            · exact h2 s hm kv hkv
            · subst hm
              exact h2 _ hsmem kv (eraseAssoc_subset hkv)
          · refine ⟨h1, ?_⟩
            intro s hsm kv hkv
            rcases setAssoc_mem hsm with hm | hm
            · exact h2 s hm kv hkv
            · subst hm
              exact h2 _ hsmem kv (eraseAssoc_subset hkv)
        · rename_i entry hentry
          refine ⟨?_, ?_⟩
          · intro e he
            rcases List.mem_append.mp he with hm | hm
            · exact h1 e hm
            · rw [List.mem_singleton] at hm
              subst hm
              exact h2 _ hsmem _ (getAssoc_mem hentry)
          · intro s hsm kv hkv
            rcases setAssoc_mem hsm with hm | hm
            · exact h2 s hm kv hkv
            · subst hm
              exact h2 _ hsmem kv (eraseAssoc_subset hkv)
      · split
        · exact ⟨h1, h2⟩
        · exact ⟨h1, h2⟩

/-- Every operation with a fresh callback keeps a clear callback clear. -/
theorem routerCbClear_step (st : RouterState) (c : Nat) (op : RouterOp)
    (hop : routerOpFresh c op) (h : routerCbClear st c) :
    routerCbClear (applyRouterOp st op) c := by
  cases op with
  | send sid dom method params cbId => exact routerCbClear_send st c sid dom method params cbId hop h
  | register t sid p => exact routerCbClear_register st c t sid p h
  | unregister sid => exact routerCbClear_unregister st c sid h
  | message msg => exact routerCbClear_onMessage st c msg h

/-- A clear callback stays clear — in particular is never invoked — along
any run of operations whose sends use fresh callbacks. -/
theorem routerCbClear_run (c : Nat) :
    ∀ (ops : List RouterOp) (st : RouterState), routerCbClear st c →
      (∀ op ∈ ops, routerOpFresh c op) → routerCbClear (runRouterOps st ops) c := by
  intro ops
  induction ops with
  | nil => intro st h _; exact h
  | cons op rest ih =>
      intro st h hops
      exact ih (applyRouterOp st op)
        (routerCbClear_step st c op (hops op (List.mem_cons_self _ _)) h)
        (fun o ho => hops o (List.mem_cons_of_mem _ ho))

/-! ## sendMessage for an unknown session (claim C3) -/

/-- The claim C3 counterexample: on a fresh router (no sessions), sending
a long-polling command to an unregistered session drops the message (the
wire stays empty, no callback is registered or invoked) but is not a
state-preserving no-op: the pending-response counter goes from 0 to 1 and
the long-polling id set gains the consumed id. -/
theorem sendMessage_unknownSession_cex :
    (sendMessage RouterState.initial "sess-x" "CSS" "CSS.takeComputedStyleUpdates" none 7).wire = [] ∧
    (sendMessage RouterState.initial "sess-x" "CSS" "CSS.takeComputedStyleUpdates" none 7).invoked = [] ∧
    (sendMessage RouterState.initial "sess-x" "CSS" "CSS.takeComputedStyleUpdates" none 7).sessions = [] ∧
    (sendMessage RouterState.initial "sess-x" "CSS" "CSS.takeComputedStyleUpdates" none 7).pendingResponsesCount = 1 ∧
    RouterState.initial.pendingResponsesCount = 0 ∧
    (sendMessage RouterState.initial "sess-x" "CSS" "CSS.takeComputedStyleUpdates" none 7).pendingLongPollingMessageIds = [1] ∧
    RouterState.initial.pendingLongPollingMessageIds = [] := by
  decide

/-- Claim C3 (amended): a `sendMessage` to an unregistered session hands
nothing to the Connection, registers no callback, leaves the sessions
map, the wire and the invocation history unchanged — and the callback is
never invoked afterwards either — but it is not entirely
state-preserving: it consumes a message id, increments the
pending-response counter, and for a long-polling method records the id in
the long-polling set. -/
theorem sendMessage_unknownSession_frame (st : RouterState)
    (sessionId domain method : String) (params : Option Nat) (cbId : Nat)
    (h : getAssoc st.sessions sessionId = none) :
    sendMessage st sessionId domain method params cbId =
      { st with
          lastMessageId := st.lastMessageId + 1,
          issuedIds := st.issuedIds ++ [st.lastMessageId],
          pendingResponsesCount := st.pendingResponsesCount + 1,
          pendingLongPollingMessageIds :=
            if method ∈ longPollingMethods then
              insertIdSet st.lastMessageId st.pendingLongPollingMessageIds
            else st.pendingLongPollingMessageIds } ∧
    (routerCbClear st cbId →
      ∀ ops : List RouterOp, (∀ op ∈ ops, routerOpFresh cbId op) →
        ∀ e ∈ (runRouterOps (sendMessage st sessionId domain method params cbId) ops).invoked,
          e.1 ≠ cbId) := by
  have heq : sendMessage st sessionId domain method params cbId =
      { st with
          lastMessageId := st.lastMessageId + 1,
          issuedIds := st.issuedIds ++ [st.lastMessageId],
          pendingResponsesCount := st.pendingResponsesCount + 1,
          pendingLongPollingMessageIds :=
            if method ∈ longPollingMethods then
              insertIdSet st.lastMessageId st.pendingLongPollingMessageIds
            else st.pendingLongPollingMessageIds } := by
    simp only [sendMessage, _nextMessageId]
    by_cases hm : method ∈ longPollingMethods <;>
      simp only [hm, if_true, if_false, ite_true, ite_false] <;>
      (split
       · rfl
       · rename_i session hs
         rw [h] at hs
         exact Option.noConfusion hs)
  refine ⟨heq, fun hclear ops hops => ?_⟩
  have hbase : routerCbClear (sendMessage st sessionId domain method params cbId) cbId := by
    rw [heq]
    exact ⟨hclear.1, hclear.2⟩
  exact fun e he => (routerCbClear_run cbId ops _ hbase hops).1 e he

/-- Witness for the amended C3 theorem: a fresh router and an
unregistered session id. -/
theorem sendMessage_unknownSession_frame_witness :
    sendMessage RouterState.initial "sess-x" "CSS" "CSS.takeComputedStyleUpdates" none 7 =
      { RouterState.initial with
          lastMessageId := RouterState.initial.lastMessageId + 1,
          issuedIds := RouterState.initial.issuedIds ++ [RouterState.initial.lastMessageId],
          pendingResponsesCount := RouterState.initial.pendingResponsesCount + 1,
          pendingLongPollingMessageIds :=
            if "CSS.takeComputedStyleUpdates" ∈ longPollingMethods then
              insertIdSet RouterState.initial.lastMessageId
                RouterState.initial.pendingLongPollingMessageIds
            else RouterState.initial.pendingLongPollingMessageIds } ∧
    (routerCbClear RouterState.initial 7 →
      ∀ ops : List RouterOp, (∀ op ∈ ops, routerOpFresh 7 op) →
        ∀ e ∈ (runRouterOps
            (sendMessage RouterState.initial "sess-x" "CSS" "CSS.takeComputedStyleUpdates" none 7)
            ops).invoked,
          e.1 ≠ 7) :=
  sendMessage_unknownSession_frame RouterState.initial "sess-x" "CSS"
    "CSS.takeComputedStyleUpdates" none 7 rfl

/-! ## registerSession over an existing session (claim C9) -/

/-- Claim C9: registering a sessionId that is already present silently
replaces the entry with a fresh session (the given target, an empty
callback map, no proxy): no console or protocol error is raised, nothing
is invoked at replacement time, and a callback pending only in the
replaced session is never invoked afterwards — neither with a response
nor with the session-unregistering error — along any run whose sends use
fresh callbacks. -/
theorem registerSession_existing_replaces_silently (st : RouterState)
    (targetId : Nat) (sid : String) (old : RouterSession)
    (h : getAssoc st.sessions sid = some old) :
    getAssoc (registerSession st targetId sid none).sessions sid =
      some ⟨targetId, [], none⟩ ∧
    (registerSession st targetId sid none).invoked = st.invoked ∧
    (registerSession st targetId sid none).consoleErrors = st.consoleErrors ∧
    (registerSession st targetId sid none).protocolErrors = st.protocolErrors ∧
    (registerSession st targetId sid none).wire = st.wire ∧
    (∀ c, (∀ e ∈ st.invoked, e.1 ≠ c) →
      (∀ s ∈ st.sessions, s.1 ≠ sid → ∀ kv ∈ s.2.callbacks, kv.2.cbId ≠ c) →
      (st.sessions.map Prod.fst).Nodup →
      ∀ ops : List RouterOp, (∀ op ∈ ops, routerOpFresh c op) →
        ∀ e ∈ (runRouterOps (registerSession st targetId sid none) ops).invoked,
          e.1 ≠ c) := by
  have hreg : registerSession st targetId sid none =
      { st with sessions := setAssoc st.sessions sid ⟨targetId, [], none⟩ } := by
    simp only [registerSession, Option.isSome_none, Bool.false_and]
    rfl
  refine ⟨?_, ?_, ?_, ?_, ?_, ?_⟩
  · rw [hreg]
    exact getAssoc_setAssoc_self st.sessions sid ⟨targetId, [], none⟩
  · rw [hreg]
  · rw [hreg]
  · rw [hreg]
  · rw [hreg]
  · intro c hinv honly hnodup ops hops
    have hbase : routerCbClear (registerSession st targetId sid none) c := by
      rw [hreg]
      refine ⟨hinv, ?_⟩
      intro s hsmem kv hkv
      rcases setAssoc_mem_nodup hnodup hsmem with hm | ⟨hmem, hne⟩
      · subst hm
        exact absurd hkv (List.not_mem_nil kv)
      · exact honly s hmem hne kv hkv
    exact fun e he => (routerCbClear_run c ops _ hbase hops).1 e he

/-- Witness for C9: a router with one session that holds one pending
callback, re-registered under the same id. -/
theorem registerSession_existing_replaces_witness :
    getAssoc (registerSession
        { RouterState.initial with
            sessions := [("a", ⟨1, [(5, ⟨77, "DOM.enable"⟩)], none⟩)] }
        2 "a" none).sessions "a" = some ⟨2, [], none⟩ ∧
    (registerSession
        { RouterState.initial with
            sessions := [("a", ⟨1, [(5, ⟨77, "DOM.enable"⟩)], none⟩)] }
        2 "a" none).invoked =
      ({ RouterState.initial with
            sessions := [("a", ⟨1, [(5, ⟨77, "DOM.enable"⟩)], none⟩)] } : RouterState).invoked ∧
    (registerSession
        { RouterState.initial with
            sessions := [("a", ⟨1, [(5, ⟨77, "DOM.enable"⟩)], none⟩)] }
        2 "a" none).consoleErrors =
      ({ RouterState.initial with
            sessions := [("a", ⟨1, [(5, ⟨77, "DOM.enable"⟩)], none⟩)] } : RouterState).consoleErrors ∧
    (registerSession
        { RouterState.initial with
            sessions := [("a", ⟨1, [(5, ⟨77, "DOM.enable"⟩)], none⟩)] }
        2 "a" none).protocolErrors =
      ({ RouterState.initial with
            sessions := [("a", ⟨1, [(5, ⟨77, "DOM.enable"⟩)], none⟩)] } : RouterState).protocolErrors ∧
    (registerSession
        { RouterState.initial with
            sessions := [("a", ⟨1, [(5, ⟨77, "DOM.enable"⟩)], none⟩)] }
        2 "a" none).wire =
      ({ RouterState.initial with
            sessions := [("a", ⟨1, [(5, ⟨77, "DOM.enable"⟩)], none⟩)] } : RouterState).wire ∧
    (∀ c, (∀ e ∈ ({ RouterState.initial with
            sessions := [("a", ⟨1, [(5, ⟨77, "DOM.enable"⟩)], none⟩)] } : RouterState).invoked, e.1 ≠ c) →
      (∀ s ∈ ({ RouterState.initial with
            sessions := [("a", ⟨1, [(5, ⟨77, "DOM.enable"⟩)], none⟩)] } : RouterState).sessions,
          s.1 ≠ "a" → ∀ kv ∈ s.2.callbacks, kv.2.cbId ≠ c) →
      (({ RouterState.initial with
            sessions := [("a", ⟨1, [(5, ⟨77, "DOM.enable"⟩)], none⟩)] } : RouterState).sessions.map Prod.fst).Nodup →
      ∀ ops : List RouterOp, (∀ op ∈ ops, routerOpFresh c op) →
        ∀ e ∈ (runRouterOps (registerSession
            { RouterState.initial with
                sessions := [("a", ⟨1, [(5, ⟨77, "DOM.enable"⟩)], none⟩)] }
            2 "a" none) ops).invoked,
          e.1 ≠ c) :=
  registerSession_existing_replaces_silently
    { RouterState.initial with
        sessions := [("a", ⟨1, [(5, ⟨77, "DOM.enable"⟩)], none⟩)] }
    2 "a" ⟨1, [(5, ⟨77, "DOM.enable"⟩)], none⟩ rfl

/-! ## Proxy sessions are forward-only (claim C10) -/

/-- Claim C10: an incoming message whose sessionId resolves to a session
with a proxy connection is never processed locally: after the
proxy-forwarding phase `_onMessage` returns — no pending callback is
invoked, no event is dispatched, the pending-response counter, the
long-polling set, the session maps and the wire are all unchanged. -/
theorem onMessage_proxySession_forward_only (st : RouterState)
    (msg : IncomingMessage) (session : RouterSession)
    (h : getAssoc st.sessions (msg.sessionId.getD "") = some session)
    (hp : session.proxyConnection.isSome = true) :
    (_onMessage st msg).invoked = st.invoked ∧
    (_onMessage st msg).dispatchedEvents = st.dispatchedEvents ∧
    (_onMessage st msg).pendingResponsesCount = st.pendingResponsesCount ∧
    (_onMessage st msg).pendingLongPollingMessageIds = st.pendingLongPollingMessageIds ∧
    (_onMessage st msg).sessions = st.sessions ∧
    (_onMessage st msg).wire = st.wire := by
  simp only [_onMessage]
  split
  · rename_i hnone
    have hns : getAssoc st.sessions (msg.sessionId.getD "") = none := hnone
    rw [h] at hns
    exact Option.noConfusion hns
  · rename_i session' hs'
    have hss : getAssoc st.sessions (msg.sessionId.getD "") = some session' := hs'
    rw [h] at hss
    injection hss with hses
    split
    · exact ⟨rfl, rfl, rfl, rfl, rfl, rfl⟩
    · rename_i hfalse
      rw [← hses] at hfalse
      exact absurd hp hfalse

/-- Witness for C10: a router with one proxy session receiving a response
message addressed to it. -/
theorem onMessage_proxySession_forward_only_witness :
    (_onMessage
        { RouterState.initial with sessions := [("s", ⟨5, [], some ⟨9, true⟩⟩)] }
        ⟨some "s", some 1, none, none, none⟩).invoked =
      ({ RouterState.initial with sessions := [("s", ⟨5, [], some ⟨9, true⟩⟩)] } : RouterState).invoked ∧
    (_onMessage
        { RouterState.initial with sessions := [("s", ⟨5, [], some ⟨9, true⟩⟩)] }
        ⟨some "s", some 1, none, none, none⟩).dispatchedEvents =
      ({ RouterState.initial with sessions := [("s", ⟨5, [], some ⟨9, true⟩⟩)] } : RouterState).dispatchedEvents ∧
    (_onMessage
        { RouterState.initial with sessions := [("s", ⟨5, [], some ⟨9, true⟩⟩)] }
        ⟨some "s", some 1, none, none, none⟩).pendingResponsesCount =
      ({ RouterState.initial with sessions := [("s", ⟨5, [], some ⟨9, true⟩⟩)] } : RouterState).pendingResponsesCount ∧
    (_onMessage
        { RouterState.initial with sessions := [("s", ⟨5, [], some ⟨9, true⟩⟩)] }
        ⟨some "s", some 1, none, none, none⟩).pendingLongPollingMessageIds =
      ({ RouterState.initial with sessions := [("s", ⟨5, [], some ⟨9, true⟩⟩)] } : RouterState).pendingLongPollingMessageIds ∧
    (_onMessage
        { RouterState.initial with sessions := [("s", ⟨5, [], some ⟨9, true⟩⟩)] }
        ⟨some "s", some 1, none, none, none⟩).sessions =
      ({ RouterState.initial with sessions := [("s", ⟨5, [], some ⟨9, true⟩⟩)] } : RouterState).sessions ∧
    (_onMessage
        { RouterState.initial with sessions := [("s", ⟨5, [], some ⟨9, true⟩⟩)] }
        ⟨some "s", some 1, none, none, none⟩).wire =
      ({ RouterState.initial with sessions := [("s", ⟨5, [], some ⟨9, true⟩⟩)] } : RouterState).wire :=
  onMessage_proxySession_forward_only
    { RouterState.initial with sessions := [("s", ⟨5, [], some ⟨9, true⟩⟩)] }
    ⟨some "s", some 1, none, none, none⟩ ⟨5, [], some ⟨9, true⟩⟩ rfl rfl
